import Mathlib

/-!
Verification development for the smart-log-viewer WebSocket server
(`server/internal/websocket/connection.go` and the connection hub file).

The Go code is shallowly embedded: each method of `Connection` and each
branch of the hub's coordination loop becomes a pure Lean function on an
explicit state.  Time is modelled as `Int` seconds (`time.Now()` becomes a
`now` parameter); success of a non-blocking channel send or of a wire write
(`WriteJSON`) is modelled by an explicit oracle `Bool`, which is how a
`select`-with-`default` and a fallible network write appear to the program.
-/

namespace SmartLogViewer

/-- Model of `model.WebSocketMessage` (`websocket_message.go`): a `Type`
discriminant string and a payload (the payload's concrete shape is opaque
to the hub/connection layer, so it is modelled as a string). -/
structure WebSocketMessage where
  type : String
  data : String
  deriving DecidableEq, Repr

/-- Model of the Go `Connection` struct (`connection.go:16-23`).
`channel` holds the messages currently buffered in the outbound channel
(capacity 100); `chanClosed` records whether `close(c.channel)` has been
executed; `lastSent`, `isClosed`, `isPaused` are the corresponding fields. -/
structure Connection where
  channel : List WebSocketMessage
  chanClosed : Bool
  lastSent : Int
  isClosed : Bool
  isPaused : Bool
  deriving DecidableEq, Repr

/-- Outbound channel capacity: `make(chan model.WebSocketMessage, 100)`. -/
def channelCapacity : Nat := 100

/-- Threshold in `shouldDrop`: `10*time.Second`, in seconds. -/
def pausedDropThreshold : Int := 10

/-- Model of `NewConnection` (`connection.go:34-43`): empty buffer, open
channel, `lastSent = time.Now()`, not closed, not paused. -/
def NewConnection (now : Int) : Connection :=
  { channel := [], chanClosed := false, lastSent := now,
    isClosed := false, isPaused := false }

/-- Model of `Connection.Close` (`connection.go:74-93`).  If already closed
it returns unchanged.  Otherwise it sets `isClosed` and then runs
`select { case <-c.channel: ... default: close(c.channel) }`.  Go semantics
of that non-blocking receive: it fires when the buffer is non-empty
(dequeuing and discarding one message) or when the channel is already
closed; only when the buffer is empty and the channel open does the
`default` branch run and actually close the channel. -/
def Connection.Close (c : Connection) : Connection :=
  if c.isClosed then c
  else
    let c1 : Connection := { c with isClosed := true }
    match c1.channel with
    | _ :: rest => { c1 with channel := rest }
    | [] => if c1.chanClosed then c1 else { c1 with chanClosed := true }

/-- Model of `Connection.IsClosed` (`connection.go:101-105`). -/
def Connection.IsClosed (c : Connection) : Bool :=
  c.isClosed

/-- Model of `Connection.sendLog` (`connection.go:113-129`): no-op when
closed; otherwise a non-blocking send into the buffered channel, which
succeeds exactly when the buffer has free capacity, updating `lastSent`;
on a full buffer the message is skipped.  (A send onto a closed channel
would panic in Go, but it is unreachable here: the channel is only closed
together with `isClosed := true` under the same mutex that guards this
method.) -/
def Connection.sendLog (c : Connection) (message : WebSocketMessage) (now : Int) :
    Connection :=
  if c.isClosed then c
  else if c.channel.length < channelCapacity then
    { c with channel := c.channel ++ [message], lastSent := now }
  else c

/-- Model of `Connection.shouldDrop` (`connection.go:137-153`): closed, or
paused and more than 10 seconds since the last activity. -/
def Connection.shouldDrop (c : Connection) (now : Int) : Bool :=
  c.isClosed || (c.isPaused && now - c.lastSent > pausedDropThreshold)

/-- Model of `Connection.SetPaused` (`connection.go:161-173`): no-op when
closed, otherwise stores the new pause flag. -/
def Connection.SetPaused (c : Connection) (paused : Bool) : Connection :=
  if c.isClosed then c else { c with isPaused := paused }

/-- Model of `Connection.IsPaused` (`connection.go:181-185`). -/
def Connection.IsPaused (c : Connection) : Bool :=
  c.isPaused

/-- The ping envelope written by `SendPing` (`connection.go:201-204`). -/
def pingMessage : WebSocketMessage :=
  { type := "ping", data := "heartbeat" }

/-- The pong envelope written by `HandleMessages` (`connection.go:250-253`). -/
def pongMessage : WebSocketMessage :=
  { type := "pong", data := "heartbeat" }

/-- Model of `Connection.SendPing` (`connection.go:193-213`): errors when
closed; otherwise writes a ping envelope directly to the wire (bypassing
the outbound buffer).  `writeOk` models success of `WriteJSON`.  Returns
the connection (the Go method assigns no field), the list of envelopes
written to the wire, and the error status. -/
def Connection.SendPing (c : Connection) (writeOk : Bool) :
    Connection × List WebSocketMessage × Except String Unit :=
  if c.isClosed then (c, [], Except.error "connection is closed")
  else if writeOk then (c, [pingMessage], Except.ok ())
  else (c, [], Except.error "write failed")

/-- One iteration of the dispatch in `Connection.HandleMessages`
(`connection.go:243-284`), for one successfully read envelope.  Returns
the updated connection and the envelopes written to the wire (`writeOk`
models success of the pong `WriteJSON`).  The `lastSent` updates are
unguarded in the Go code; the pause-flag updates go through `SetPaused`,
which is a no-op on a closed connection. -/
def Connection.handleMessage (c : Connection) (message : WebSocketMessage)
    (now : Int) (writeOk : Bool) : Connection × List WebSocketMessage :=
  if message.type = "ping" then
    ({ c with lastSent := now }, if writeOk then [pongMessage] else [])
  else if message.type = "pong" then
    ({ c with lastSent := now }, [])
  else if message.type = "pause" then
    (Connection.SetPaused { c with lastSent := now } true, [])
  else if message.type = "resume" then
    (Connection.SetPaused { c with lastSent := now } false, [])
  else (c, [])

/-- The inbound reader task (`HandleMessages`, `connection.go:221-288`):
processes each successfully read envelope in order; when the next read
fails (error/EOF) the loop exits and the deferred `Close` runs.  Each list
entry carries the envelope, the read time, and the pong-write success. -/
def Connection.runInbound (c : Connection)
    (msgs : List (WebSocketMessage × Int × Bool)) : Connection :=
  Connection.Close
    (msgs.foldl (fun acc e => (Connection.handleMessage acc e.1 e.2.1 e.2.2).1) c)

/-- One step of the outbound `Send` loop (`connection.go:59-65`,
`for message := range c.channel`): dequeues the next buffered envelope if
any, writing it to the wire; returns `none` when the buffer is empty (the
loop then either blocks or, if the channel is closed, exits). -/
def Connection.sendStep (c : Connection) :
    Option (Connection × WebSocketMessage) :=
  match c.channel with
  | m :: rest => some ({ c with channel := rest }, m)
  | [] => none

/-- Every operation the program can apply to a single connection's state:
its own `Close`, a broadcast-path `sendLog`, a pause-state change, a
liveness ping, one inbound-dispatch step, and one outbound-drain step. -/
inductive ConnOp where
  | close
  | sendLog (message : WebSocketMessage) (now : Int)
  | setPaused (paused : Bool)
  | sendPing (writeOk : Bool)
  | handle (message : WebSocketMessage) (now : Int) (writeOk : Bool)
  | sendStep
  deriving DecidableEq, Repr

/-- Effect of a `ConnOp` on a connection's state. -/
def ConnOp.apply (op : ConnOp) (c : Connection) : Connection :=
  match op with
  | .close => c.Close
  | .sendLog m now => c.sendLog m now
  | .setPaused p => c.SetPaused p
  | .sendPing ok => (c.SendPing ok).1
  | .handle m now ok => (c.handleMessage m now ok).1
  | .sendStep =>
    match c.sendStep with
    | some r => r.1
    | none => c

/-- A sample log envelope used in concrete evaluations. -/
def logMsgA : WebSocketMessage :=
  { type := "log", data := "a" }

/-- A second sample log envelope used in concrete evaluations. -/
def logMsgB : WebSocketMessage :=
  { type := "log", data := "b" }

theorem Connection.Close_isClosed (c : Connection) : (c.Close).isClosed = true := by
  obtain ⟨ch, cc, ls, ic, ip⟩ := c
  cases ic <;> cases cc <;> cases ch <;> rfl

theorem Connection.Close_of_closed (c : Connection) (h : c.isClosed = true) :
    c.Close = c := by
  simp [Connection.Close, h]

/-- The per-connection delivery task spawned by the hub's broadcast branch
(hub file, lines 143-148): delivery is skipped entirely when the
connection is paused or meets the drop predicate, otherwise `sendLog`. -/
def deliverTo (logEntry : WebSocketMessage) (now : Int) (c : Connection) :
    Connection :=
  if !c.IsPaused && !c.shouldDrop now then c.sendLog logEntry now else c

/-- C8: `shouldDrop` returns true iff the connection is closed, or it is
paused and the time since its last-activity timestamp exceeds the fixed
10-second threshold. -/
theorem shouldDrop_iff (c : Connection) (now : Int) :
    c.shouldDrop now = true ↔
      (c.isClosed = true ∨
        (c.isPaused = true ∧ now - c.lastSent > pausedDropThreshold)) := by
  simp [Connection.shouldDrop]

/-- C5: `sendLog` (the spec's `enqueueForDelivery`) is a no-op when the
connection is closed; when the outbound buffer is full it drops the
envelope leaving the whole connection state unchanged; on success it
appends the envelope to the buffer and updates the last-activity
timestamp. -/
theorem sendLog_spec (c : Connection) (m : WebSocketMessage) (now : Int) :
    (c.isClosed = true → c.sendLog m now = c) ∧
    (c.isClosed = false → channelCapacity ≤ c.channel.length →
      c.sendLog m now = c) ∧
    (c.isClosed = false → c.channel.length < channelCapacity →
      c.sendLog m now = { c with channel := c.channel ++ [m], lastSent := now }) := by
  refine ⟨fun h => by simp [Connection.sendLog, h], fun h hf => ?_, fun h hs => ?_⟩
  · simp [Connection.sendLog, h, Nat.not_lt.mpr hf]
  · simp [Connection.sendLog, h, hs]

/-- Witness for `sendLog_spec` at a concrete open connection with room. -/
theorem sendLog_spec_witness :
    (NewConnection 0).isClosed = false ∧
      (NewConnection 0).channel.length < channelCapacity ∧
      (NewConnection 0).sendLog logMsgA 5 =
        { NewConnection 0 with
            channel := (NewConnection 0).channel ++ [logMsgA], lastSent := 5 } :=
  ⟨rfl, by decide, (sendLog_spec (NewConnection 0) logMsgA 5).2.2 rfl (by decide)⟩

/-- C10: `SendPing` leaves the connection state entirely unchanged (so in
particular the last-activity timestamp and the drop predicate are exactly
as before the call, whether or not the write succeeds); on an open
connection with a successful write it emits exactly one ping envelope. -/
theorem SendPing_frame (c : Connection) (writeOk : Bool) :
    (c.SendPing writeOk).1 = c ∧
    (c.SendPing writeOk).1.lastSent = c.lastSent ∧
    (∀ now, (c.SendPing writeOk).1.shouldDrop now = c.shouldDrop now) ∧
    (c.isClosed = false → writeOk = true →
      (c.SendPing writeOk).2.1 = [pingMessage] ∧
        (c.SendPing writeOk).2.2 = Except.ok ()) := by
  unfold Connection.SendPing
  by_cases h : c.isClosed <;> cases writeOk <;> simp [h]

/-- Witness for `SendPing_frame` on a concrete open connection. -/
theorem SendPing_frame_witness :
    ((NewConnection 0).SendPing true).1 = NewConnection 0 ∧
      ((NewConnection 0).SendPing true).2.1 = [pingMessage] :=
  ⟨(SendPing_frame (NewConnection 0) true).1,
   ((SendPing_frame (NewConnection 0) true).2.2.2 rfl rfl).1⟩

/-- C9: `sendLog` never consults the paused flag: on an open connection
with buffer space a direct enqueue succeeds and updates last-activity even
when the connection is paused; the skipping of paused connections is
enforced solely by the hub's broadcast dispatch (`deliverTo`), which
leaves a paused connection untouched. -/
theorem sendLog_ignores_paused (c : Connection) (m l : WebSocketMessage) (now : Int)
    (hp : c.isPaused = true) (hc : c.isClosed = false)
    (hs : c.channel.length < channelCapacity) :
    c.sendLog m now = { c with channel := c.channel ++ [m], lastSent := now } ∧
    deliverTo l now c = c := by
  constructor
  · simp [Connection.sendLog, hc, hs]
  · simp [deliverTo, Connection.IsPaused, hp]

/-- Witness for `sendLog_ignores_paused` on a concrete paused connection. -/
theorem sendLog_ignores_paused_witness :
    ((NewConnection 0).SetPaused true).isPaused = true ∧
      ((NewConnection 0).SetPaused true).sendLog logMsgA 3 =
        { (NewConnection 0).SetPaused true with
            channel := ((NewConnection 0).SetPaused true).channel ++ [logMsgA],
            lastSent := 3 } ∧
      deliverTo logMsgB 3 ((NewConnection 0).SetPaused true) =
        (NewConnection 0).SetPaused true :=
  ⟨rfl,
   (sendLog_ignores_paused ((NewConnection 0).SetPaused true) logMsgA logMsgB 3
      rfl rfl (by decide)).1,
   (sendLog_ignores_paused ((NewConnection 0).SetPaused true) logMsgA logMsgB 3
      rfl rfl (by decide)).2⟩

/-- C2 (code bug): on an open connection with one buffered envelope,
`Close` sets the closed flag, but the `select`'s receive case fires on the
non-empty buffer, discarding the buffered envelope and never reaching the
`close(c.channel)` in the `default` branch: the buffer is left open
(`chanClosed = false`), so the outbound task is not released, contradicting
the method's own comments.  A second `Close` is a no-op. -/
theorem Close_nonempty_buffer_bug :
    ((NewConnection 0).sendLog logMsgA 1).channel = [logMsgA] ∧
    ((NewConnection 0).sendLog logMsgA 1).Close.isClosed = true ∧
    ((NewConnection 0).sendLog logMsgA 1).Close.chanClosed = false ∧
    ((NewConnection 0).sendLog logMsgA 1).Close.channel = [] ∧
    ((NewConnection 0).sendLog logMsgA 1).Close.Close =
      ((NewConnection 0).sendLog logMsgA 1).Close := by
  decide

/-- C3 (counterexample): the outbound buffer is still read after
closed=true: after two enqueues and a `Close` (which discards one envelope
and leaves one buffered with the channel still open), the outbound task's
next step dequeues the remaining envelope although the closed flag is
already set. -/
theorem closed_buffer_still_read :
    ((((NewConnection 0).sendLog logMsgA 1).sendLog logMsgB 2).Close).isClosed = true ∧
    (ConnOp.apply ConnOp.sendStep
        ((((NewConnection 0).sendLog logMsgA 1).sendLog logMsgB 2).Close)).channel ≠
      ((((NewConnection 0).sendLog logMsgA 1).sendLog logMsgB 2).Close).channel := by
  decide

theorem Connection.handleMessage_isClosed (c : Connection) (m : WebSocketMessage)
    (now : Int) (ok : Bool) :
    ((c.handleMessage m now ok).1).isClosed = c.isClosed := by
  unfold Connection.handleMessage Connection.SetPaused
  split_ifs <;> rfl

theorem Connection.handleMessage_channel (c : Connection) (m : WebSocketMessage)
    (now : Int) (ok : Bool) :
    ((c.handleMessage m now ok).1).channel = c.channel := by
  unfold Connection.handleMessage Connection.SetPaused
  split_ifs <;> rfl

/-- C3 (amended): once closed=true it stays true under every operation, and
the outbound buffer is never written to after closed=true: any operation
leaves the buffer a suffix of what it was (it can only be drained, by the
outbound task or by `Close` itself, never extended). -/
theorem closed_permanent_and_no_write (op : ConnOp) (c : Connection)
    (h : c.isClosed = true) :
    (op.apply c).isClosed = true ∧ (op.apply c).channel <:+ c.channel := by
  cases op with
  | close =>
      have he : ConnOp.apply ConnOp.close c = c := Connection.Close_of_closed c h
      rw [he]; exact ⟨h, List.suffix_refl _⟩
  | sendLog m now =>
      have he : ConnOp.apply (ConnOp.sendLog m now) c = c := by
        simp [ConnOp.apply, Connection.sendLog, h]
      rw [he]; exact ⟨h, List.suffix_refl _⟩
  | setPaused p =>
      have he : ConnOp.apply (ConnOp.setPaused p) c = c := by
        simp [ConnOp.apply, Connection.SetPaused, h]
      rw [he]; exact ⟨h, List.suffix_refl _⟩
  | sendPing ok =>
      have he : ConnOp.apply (ConnOp.sendPing ok) c = c := by
        simp [ConnOp.apply, Connection.SendPing, h]
      rw [he]; exact ⟨h, List.suffix_refl _⟩
  | handle m now ok =>
      refine ⟨?_, ?_⟩
      · show ((c.handleMessage m now ok).1).isClosed = true
        rw [Connection.handleMessage_isClosed]; exact h
      · show ((c.handleMessage m now ok).1).channel <:+ c.channel
        rw [Connection.handleMessage_channel]
  | sendStep =>
      cases hc : c.channel with
      | nil =>
          have he : ConnOp.apply ConnOp.sendStep c = c := by
            simp [ConnOp.apply, Connection.sendStep, hc]
          rw [he, hc]; exact ⟨h, List.suffix_refl _⟩
      | cons m rest =>
          have he : ConnOp.apply ConnOp.sendStep c = { c with channel := rest } := by
            simp [ConnOp.apply, Connection.sendStep, hc]
          rw [he]
          exact ⟨h, List.suffix_cons m rest⟩

/-- Witness for `closed_permanent_and_no_write` on a concrete closed
connection. -/
theorem closed_permanent_and_no_write_witness :
    ((NewConnection 0).Close).isClosed = true ∧
      (ConnOp.apply (ConnOp.sendLog logMsgA 3) ((NewConnection 0).Close)).isClosed = true ∧
      (ConnOp.apply (ConnOp.sendLog logMsgA 3) ((NewConnection 0).Close)).channel <:+
        ((NewConnection 0).Close).channel :=
  ⟨rfl, (closed_permanent_and_no_write (ConnOp.sendLog logMsgA 3) ((NewConnection 0).Close) rfl).1,
   (closed_permanent_and_no_write (ConnOp.sendLog logMsgA 3) ((NewConnection 0).Close) rfl).2⟩

/-- C7 (counterexample): a pause envelope received on an already-closed
connection updates last-activity but does not set the paused flag, because
`SetPaused` is a no-op on a closed connection — the claim's unconditional
"pause sets paused=true" fails there. -/
theorem pause_on_closed_not_paused :
    (((NewConnection 0).Close.handleMessage
        { type := "pause", data := "" } 5 true).1).isPaused = false ∧
    (((NewConnection 0).Close.handleMessage
        { type := "pause", data := "" } 5 true).1).lastSent = 5 ∧
    ((NewConnection 0).Close).isClosed = true := by
  decide

/-- C7 (amended): dispatch of one inbound envelope by discriminant: ping
updates last-activity and (when the write succeeds) replies pong; pong
updates last-activity only; pause and resume update last-activity and,
when the connection is not closed, set respectively clear the paused flag;
an unrecognized discriminant changes nothing; and when the read loop ends
(read failure/EOF) the inbound task triggers `Close`, leaving the
connection closed. -/
theorem handleMessage_dispatch (c : Connection) (d : String) (now : Int)
    (writeOk : Bool) :
    (c.handleMessage { type := "ping", data := d } now writeOk =
      ({ c with lastSent := now }, if writeOk then [pongMessage] else [])) ∧
    (c.handleMessage { type := "pong", data := d } now writeOk =
      ({ c with lastSent := now }, [])) ∧
    (c.isClosed = false → c.handleMessage { type := "pause", data := d } now writeOk =
      ({ c with lastSent := now, isPaused := true }, [])) ∧
    (c.isClosed = false → c.handleMessage { type := "resume", data := d } now writeOk =
      ({ c with lastSent := now, isPaused := false }, [])) ∧
    (∀ t, t ≠ "ping" → t ≠ "pong" → t ≠ "pause" → t ≠ "resume" →
      c.handleMessage { type := t, data := d } now writeOk = (c, [])) ∧
    (∀ msgs, (c.runInbound msgs).isClosed = true) := by
  refine ⟨?_, ?_, ?_, ?_, ?_, ?_⟩
  · simp [Connection.handleMessage]
  · simp [Connection.handleMessage]
  · intro h; simp [Connection.handleMessage, Connection.SetPaused, h]
  · intro h; simp [Connection.handleMessage, Connection.SetPaused, h]
  · intro t h1 h2 h3 h4; simp [Connection.handleMessage, h1, h2, h3, h4]
  · intro msgs; exact Connection.Close_isClosed _

/-- Witness for `handleMessage_dispatch` on a concrete open connection. -/
theorem handleMessage_dispatch_witness :
    (NewConnection 0).isClosed = false ∧
      (NewConnection 0).handleMessage { type := "pause", data := "" } 7 true =
        ({ NewConnection 0 with lastSent := 7, isPaused := true }, []) :=
  ⟨rfl, (handleMessage_dispatch (NewConnection 0) "" 7 true).2.2.1 rfl⟩

/-!
The hub (`ConnectionHub`): connections are identified by numeric ids (Go
uses pointer identity); the `connections` map is a duplicate-free list of
ids plus a state assignment.  The non-blocking sends on the unbuffered
`unregister` channel are modelled by an oracle `sendOk`, and the envelopes
arriving on `register`, `unregister` and `Broadcast` are the event trace
the loop consumes. -/

/-- Result of the sweep phase of `checkConnectionHealth` (hub file,
lines 46-72): surviving membership, connection states after the sweep, the
`connectionsToDrop` queue, the ids sent a liveness ping, and the ids of
closed connections removed immediately. -/
structure SweepResult where
  members : List Nat
  conns : Nat → Connection
  drops : List Nat
  pinged : List Nat
  removed : List Nat

/-- Sweep phase of `checkConnectionHealth`: one pass over the membership
list.  A closed connection is deleted from the set immediately and `Close`
is called on it (a no-op on an already-closed connection); a connection
whose drop predicate holds is queued for unregistration; a paused
connection is sent a ping (`pingOk` models the wire-write success) and is
queued when the ping fails. -/
def healthSweep (now : Int) (pingOk : Nat → Bool) :
    List Nat → (Nat → Connection) → SweepResult
  | [], conns => ⟨[], conns, [], [], []⟩
  | n :: rest, conns =>
    if (conns n).IsClosed then
      let conns2 := Function.update conns n ((conns n).Close)
      let r := healthSweep now pingOk rest conns2
      ⟨r.members, r.conns, r.drops, r.pinged, n :: r.removed⟩
    else if (conns n).shouldDrop now then
      let r := healthSweep now pingOk rest conns
      ⟨n :: r.members, r.conns, n :: r.drops, r.pinged, r.removed⟩
    else if (conns n).IsPaused then
      if pingOk n then
        let r := healthSweep now pingOk rest conns
        ⟨n :: r.members, r.conns, r.drops, n :: r.pinged, r.removed⟩
      else
        let r := healthSweep now pingOk rest conns
        ⟨n :: r.members, r.conns, n :: r.drops, n :: r.pinged, r.removed⟩
    else
      let r := healthSweep now pingOk rest conns
      ⟨n :: r.members, r.conns, r.drops, r.pinged, r.removed⟩

/-- Drop phase of `checkConnectionHealth` (hub file, lines 75-83): for each
queued connection, a non-blocking submit to the unregister channel
(`sendOk` models whether the send is accepted); on saturation the
connection is closed directly — and, in the code, not removed from the
membership set.  Returns the updated connection states and the ids
actually handed to the unregister channel. -/
def processDrops (sendOk : Nat → Bool) :
    List Nat → (Nat → Connection) → (Nat → Connection) × List Nat
  | [], conns => (conns, [])
  | n :: rest, conns =>
    if sendOk n then
      let r := processDrops sendOk rest conns
      (r.1, n :: r.2)
    else
      let conns2 := Function.update conns n ((conns n).Close)
      processDrops sendOk rest conns2

/-- Result of a whole `checkConnectionHealth` pass. -/
structure HealthResult where
  members : List Nat
  conns : Nat → Connection
  sent : List Nat
  pinged : List Nat
  removed : List Nat

/-- Model of `ConnectionHub.checkConnectionHealth` (hub file, lines 44-84):
the sweep followed by the batched non-blocking drop submissions. -/
def checkConnectionHealth (now : Int) (pingOk sendOk : Nat → Bool)
    (members : List Nat) (conns : Nat → Connection) : HealthResult :=
  let s := healthSweep now pingOk members conns
  let p := processDrops sendOk s.drops s.conns
  ⟨s.members, p.1, p.2, s.pinged, s.removed⟩

/-- Result of the hub loop's broadcast branch. -/
structure BroadcastResult where
  members : List Nat
  conns : Nat → Connection
  sent : List Nat
  removed : List Nat
  active : List Nat

/-- The filtering half of the broadcast branch (hub file, lines 125-140):
closed connections found during the pass are submitted to the unregister
channel without blocking, or on saturation deleted from the set and closed
directly; the rest become the `activeConnections` slice. -/
def broadcastFilter (sendOk : Nat → Bool) :
    List Nat → (Nat → Connection) → BroadcastResult
  | [], conns => ⟨[], conns, [], [], []⟩
  | n :: rest, conns =>
    if (conns n).IsClosed then
      if sendOk n then
        let r := broadcastFilter sendOk rest conns
        ⟨n :: r.members, r.conns, n :: r.sent, r.removed, r.active⟩
      else
        let conns2 := Function.update conns n ((conns n).Close)
        let r := broadcastFilter sendOk rest conns2
        ⟨r.members, r.conns, r.sent, n :: r.removed, r.active⟩
    else
      let r := broadcastFilter sendOk rest conns
      ⟨n :: r.members, r.conns, r.sent, r.removed, n :: r.active⟩

/-- Model of the hub loop's broadcast branch (hub file, lines 117-149):
a broadcast to zero connections is a no-op; otherwise the membership is
filtered and each active connection gets its own delivery task
(`deliverTo`), which skips paused or dropping connections. -/
def broadcastStep (logEntry : WebSocketMessage) (now : Int) (sendOk : Nat → Bool)
    (members : List Nat) (conns : Nat → Connection) : BroadcastResult :=
  if members.isEmpty then ⟨members, conns, [], [], []⟩
  else
    let f := broadcastFilter sendOk members conns
    { f with conns := fun n =>
        if n ∈ f.active then deliverTo logEntry now (f.conns n) else f.conns n }

/-- Membership actions recorded while the hub loop runs: a registration, or
a removal from the connection set (the unregister branch, the health-check
removal of a closed connection, or the broadcast force-close). -/
inductive HubAction where
  | reg (n : Nat)
  | rem (n : Nat)
  deriving DecidableEq, Repr

/-- Events the hub's coordination loop processes one at a time
(`ConnectionHub.Run`, hub file, lines 102-151), together with the
per-connection operations that a connection's own tasks can interleave
between loop iterations. -/
inductive HubEvent where
  | register (n : Nat)
  | unregister (n : Nat)
  | healthTick (now : Int) (pingOk : Nat → Bool) (sendOk : Nat → Bool)
  | broadcast (logEntry : WebSocketMessage) (now : Int) (sendOk : Nat → Bool)
  | connOp (n : Nat) (op : ConnOp)

/-- State owned by the hub loop: the `connections` map's key set and each
connection's state. -/
structure HubState where
  members : List Nat
  conns : Nat → Connection

/-- One iteration of the hub loop (or one interleaved connection-task
step); returns the new state and the membership actions performed. -/
def hubStep (s : HubState) (e : HubEvent) : HubState × List HubAction :=
  match e with
  | .register n =>
      ({ s with members := s.members.insert n }, [.reg n])
  | .unregister n =>
      ({ members := s.members.erase n,
         conns := Function.update s.conns n ((s.conns n).Close) }, [.rem n])
  | .healthTick now pingOk sendOk =>
      let r := checkConnectionHealth now pingOk sendOk s.members s.conns
      ({ members := r.members, conns := r.conns }, r.removed.map .rem)
  | .broadcast logEntry now sendOk =>
      let r := broadcastStep logEntry now sendOk s.members s.conns
      ({ members := r.members, conns := r.conns }, r.removed.map .rem)
  | .connOp n op =>
      ({ s with conns := Function.update s.conns n (op.apply (s.conns n)) }, [])

/-- The hub's initial state (`NewConnectionHub`): empty connection map. -/
def initialHub : HubState :=
  { members := [], conns := fun _ => NewConnection 0 }

/-- The hub loop run from a given state over a trace of events,
accumulating the membership actions. -/
def hubRunFrom (s : HubState) : List HubEvent → HubState × List HubAction
  | [] => (s, [])
  | e :: es =>
      let r := hubStep s e
      let rest := hubRunFrom r.1 es
      (rest.1, r.2 ++ rest.2)

/-- The hub loop run from the initial state. -/
def hubRun (events : List HubEvent) : HubState × List HubAction :=
  hubRunFrom initialHub events

/-- Folding one membership action into the registered-and-not-removed
status of connection `n`. -/
def histStep (n : Nat) (acc : Bool) (a : HubAction) : Bool :=
  match a with
  | .reg m => if m = n then true else acc
  | .rem m => if m = n then false else acc

/-- Whether, according to the recorded membership actions, connection `n`
has been registered and not removed since. -/
def activeInHistory (hist : List HubAction) (n : Nat) : Bool :=
  hist.foldl (histStep n) false

/-- A paused, open connection with last activity at time 0, used in
concrete evaluations (stale at `now = 20`, fresh at `now = 5`). -/
def pausedConn : Connection :=
  { channel := [], chanClosed := false, lastSent := 0,
    isClosed := false, isPaused := true }

theorem update_close_closed (conns : Nat → Connection) (n : Nat)
    (h : (conns n).isClosed = true) :
    Function.update conns n ((conns n).Close) = conns := by
  rw [Connection.Close_of_closed _ h, Function.update_eq_self]

theorem Connection.Close_Close (c : Connection) : c.Close.Close = c.Close :=
  Connection.Close_of_closed _ (Connection.Close_isClosed c)

theorem healthSweep_eq (now : Int) (pingOk : Nat → Bool) :
    ∀ (ms : List Nat) (conns : Nat → Connection),
      healthSweep now pingOk ms conns =
        ⟨ms.filter (fun n => !(conns n).isClosed),
         conns,
         ms.filter (fun n => !(conns n).isClosed &&
           ((conns n).shouldDrop now || ((conns n).isPaused && !pingOk n))),
         ms.filter (fun n => !(conns n).isClosed &&
           !(conns n).shouldDrop now && (conns n).isPaused),
         ms.filter (fun n => (conns n).isClosed)⟩ := by
  intro ms
  induction ms with
  | nil => intro conns; rfl
  | cons n rest ih =>
      intro conns
      by_cases h : (conns n).isClosed
      · have hu : Function.update conns n ((conns n).Close) = conns :=
          update_close_closed conns n h
        simp [healthSweep, Connection.IsClosed, h, hu, ih, List.filter_cons]
      · by_cases hd : (conns n).shouldDrop now
        · simp [healthSweep, Connection.IsClosed, h, hd, ih, List.filter_cons]
        · by_cases hp : (conns n).isPaused
          · by_cases hping : pingOk n <;>
              simp [healthSweep, Connection.IsClosed, Connection.IsPaused,
                h, hd, hp, hping, ih, List.filter_cons]
          · simp [healthSweep, Connection.IsClosed, Connection.IsPaused,
              h, hd, hp, ih, List.filter_cons]

theorem processDrops_conns (sendOk : Nat → Bool) :
    ∀ (l : List Nat) (conns : Nat → Connection) (n : Nat),
      (processDrops sendOk l conns).1 n =
        if n ∈ l ∧ sendOk n = false then (conns n).Close else conns n := by
  intro l
  induction l with
  | nil => intro conns n; simp [processDrops]
  | cons m rest ih =>
      intro conns n
      by_cases hs : sendOk m
      · rw [show processDrops sendOk (m :: rest) conns =
            ((processDrops sendOk rest conns).1, m :: (processDrops sendOk rest conns).2) by
              simp [processDrops, hs]]
        rw [ih]
        by_cases hnm : n = m
        · subst hnm
          simp [hs]
        · simp [List.mem_cons, hnm]
      · rw [show processDrops sendOk (m :: rest) conns =
            processDrops sendOk rest (Function.update conns m ((conns m).Close)) by
              simp [processDrops, hs]]
        rw [ih]
        by_cases hnm : n = m
        · subst hnm
          have hsf : sendOk n = false := by simpa using hs
          simp only [Function.update_same]
          by_cases hr : n ∈ rest ∧ sendOk n = false
          · simp [hr, List.mem_cons, Connection.Close_Close, hsf]
          · simp [hr, List.mem_cons, hsf, Connection.Close_Close]
        · have hne : n ≠ m := hnm
          simp only [Function.update_noteq hne]
          by_cases hr : n ∈ rest ∧ sendOk n = false
          · simp [hr, List.mem_cons, hnm]
          · simp [hr, List.mem_cons, hnm]

theorem processDrops_sent (sendOk : Nat → Bool) :
    ∀ (l : List Nat) (conns : Nat → Connection),
      (processDrops sendOk l conns).2 = l.filter (fun n => sendOk n) := by
  intro l
  induction l with
  | nil => intro conns; rfl
  | cons m rest ih =>
      intro conns
      by_cases hs : sendOk m <;> simp [processDrops, hs, ih, List.filter_cons]

theorem broadcastFilter_eq (sendOk : Nat → Bool) :
    ∀ (ms : List Nat) (conns : Nat → Connection),
      broadcastFilter sendOk ms conns =
        ⟨ms.filter (fun n => !((conns n).isClosed && !sendOk n)),
         conns,
         ms.filter (fun n => (conns n).isClosed && sendOk n),
         ms.filter (fun n => (conns n).isClosed && !sendOk n),
         ms.filter (fun n => !(conns n).isClosed)⟩ := by
  intro ms
  induction ms with
  | nil => intro conns; rfl
  | cons n rest ih =>
      intro conns
      by_cases h : (conns n).isClosed
      · by_cases hs : sendOk n
        · simp [broadcastFilter, Connection.IsClosed, h, hs, ih, List.filter_cons]
        · have hu : Function.update conns n ((conns n).Close) = conns :=
            update_close_closed conns n h
          simp [broadcastFilter, Connection.IsClosed, h, hs, hu, ih, List.filter_cons]
      · simp [broadcastFilter, Connection.IsClosed, h, ih, List.filter_cons]

theorem activeInHistory_append (h1 h2 : List HubAction) (n : Nat) :
    activeInHistory (h1 ++ h2) n = h2.foldl (histStep n) (activeInHistory h1 n) := by
  simp [activeInHistory, List.foldl_append]

theorem foldl_histStep_rems (n : Nat) :
    ∀ (l : List Nat) (b : Bool),
      (l.map HubAction.rem).foldl (histStep n) b = if n ∈ l then false else b := by
  intro l
  induction l with
  | nil => intro b; simp
  | cons m rest ih =>
      intro b
      simp only [List.map_cons, List.foldl_cons]
      by_cases h : n = m
      · subst h
        simp [histStep, ih]
      · have h2 : ¬(m = n) := fun hh => h hh.symm
        simp [histStep, h2, ih, h]

theorem activeInHistory_true_reg (n : Nat) :
    ∀ (hist : List HubAction) (b : Bool),
      hist.foldl (histStep n) b = true → b = true ∨ HubAction.reg n ∈ hist := by
  intro hist
  induction hist with
  | nil => intro b h; exact Or.inl h
  | cons a rest ih =>
      intro b h
      rcases ih _ h with h1 | h2
      · cases a with
        | reg m =>
            by_cases hm : m = n
            · subst hm; exact Or.inr (List.mem_cons_self _ _)
            · rw [show histStep n b (HubAction.reg m) = b by simp [histStep, hm]] at h1
              exact Or.inl h1
        | rem m =>
            by_cases hm : m = n
            · subst hm; simp [histStep] at h1
            · rw [show histStep n b (HubAction.rem m) = b by simp [histStep, hm]] at h1
              exact Or.inl h1
      · exact Or.inr (List.mem_cons_of_mem _ h2)

theorem filter_invariant_step (ms : List Nat) (hist : List HubAction)
    (p q : Nat → Bool) (hpq : ∀ n, q n = !p n) (hnd : ms.Nodup)
    (hmem : ∀ m, m ∈ ms ↔ activeInHistory hist m = true) :
    (ms.filter p).Nodup ∧
      ∀ m, m ∈ ms.filter p ↔
        activeInHistory (hist ++ (ms.filter q).map HubAction.rem) m = true := by
  refine ⟨hnd.filter _, fun m => ?_⟩
  rw [activeInHistory_append, foldl_histStep_rems]
  by_cases hm : m ∈ ms
  · by_cases hp : p m
    · have h1 : m ∈ ms.filter p := List.mem_filter.mpr ⟨hm, hp⟩
      have h2 : m ∉ ms.filter q := by
        simp [List.mem_filter, hpq, hp]
      simp [h1, h2, (hmem m).mp hm]
    · have h1 : m ∉ ms.filter p := by
        simp [List.mem_filter, hp]
      have h2 : m ∈ ms.filter q := List.mem_filter.mpr ⟨hm, by simp [hpq, hp]⟩
      simp [h1, h2]
  · have h1 : m ∉ ms.filter p := fun hc => hm (List.mem_filter.mp hc).1
    have h2 : m ∉ ms.filter q := fun hc => hm (List.mem_filter.mp hc).1
    have h3 : activeInHistory hist m = false := by
      cases hq : activeInHistory hist m
      · rfl
      · exact absurd ((hmem m).mpr hq) hm
    simp [h1, h2, h3]

theorem hubStep_invariant (s : HubState) (e : HubEvent) (hist : List HubAction)
    (hnd : s.members.Nodup)
    (hmem : ∀ m, m ∈ s.members ↔ activeInHistory hist m = true) :
    (hubStep s e).1.members.Nodup ∧
      ∀ m, m ∈ (hubStep s e).1.members ↔
        activeInHistory (hist ++ (hubStep s e).2) m = true := by
  cases e with
  | register n =>
      refine ⟨hnd.insert, fun m => ?_⟩
      simp only [hubStep]
      rw [activeInHistory_append]
      rw [List.mem_insert_iff]
      simp only [List.foldl_cons, List.foldl_nil, histStep]
      by_cases h : n = m
      · subst h; simp
      · simp [h, Ne.symm h, hmem m]
  | unregister n =>
      refine ⟨hnd.erase n, fun m => ?_⟩
      simp only [hubStep]
      rw [activeInHistory_append]
      rw [hnd.mem_erase_iff]
      simp only [List.foldl_cons, List.foldl_nil, histStep]
      by_cases h : n = m
      · subst h; simp
      · simp [h, Ne.symm h, hmem m]
  | healthTick now pingOk sendOk =>
      have hm : (hubStep s (HubEvent.healthTick now pingOk sendOk)).1.members =
          s.members.filter (fun n => !(s.conns n).isClosed) := by
        simp [hubStep, checkConnectionHealth, healthSweep_eq]
      have hr : (hubStep s (HubEvent.healthTick now pingOk sendOk)).2 =
          (s.members.filter (fun n => (s.conns n).isClosed)).map HubAction.rem := by
        simp [hubStep, checkConnectionHealth, healthSweep_eq]
      rw [hm, hr]
      exact filter_invariant_step s.members hist _ _ (fun n => by simp) hnd hmem
  | broadcast logEntry now sendOk =>
      by_cases he : s.members.isEmpty
      · have hm : (hubStep s (HubEvent.broadcast logEntry now sendOk)).1.members =
            s.members := by
          simp [hubStep, broadcastStep, he]
        have hr : (hubStep s (HubEvent.broadcast logEntry now sendOk)).2 = [] := by
          simp [hubStep, broadcastStep, he]
        rw [hm, hr]
        exact ⟨hnd, fun m => by simpa using hmem m⟩
      · have hm : (hubStep s (HubEvent.broadcast logEntry now sendOk)).1.members =
            s.members.filter (fun n => !((s.conns n).isClosed && !sendOk n)) := by
          simp [hubStep, broadcastStep, he, broadcastFilter_eq]
        have hr : (hubStep s (HubEvent.broadcast logEntry now sendOk)).2 =
            (s.members.filter (fun n => (s.conns n).isClosed && !sendOk n)).map
              HubAction.rem := by
          simp [hubStep, broadcastStep, he, broadcastFilter_eq]
        rw [hm, hr]
        exact filter_invariant_step s.members hist _ _ (fun n => by simp) hnd hmem
  | connOp n op =>
      exact ⟨hnd, fun m => by simpa [hubStep] using hmem m⟩

theorem hubRunFrom_invariant :
    ∀ (events : List HubEvent) (s : HubState) (hist : List HubAction),
      s.members.Nodup →
      (∀ m, m ∈ s.members ↔ activeInHistory hist m = true) →
      (hubRunFrom s events).1.members.Nodup ∧
        ∀ m, m ∈ (hubRunFrom s events).1.members ↔
          activeInHistory (hist ++ (hubRunFrom s events).2) m = true := by
  intro events
  induction events with
  | nil =>
      intro s hist hnd hmem
      exact ⟨hnd, fun m => by simpa [hubRunFrom] using hmem m⟩
  | cons e es ih =>
      intro s hist hnd hmem
      have hstep := hubStep_invariant s e hist hnd hmem
      have hrest := ih (hubStep s e).1 (hist ++ (hubStep s e).2) hstep.1 hstep.2
      refine ⟨by simpa [hubRunFrom] using hrest.1, fun m => ?_⟩
      have h2 := hrest.2 m
      rw [List.append_assoc] at h2
      simpa [hubRunFrom] using h2

/-- C1: after any sequence of register, unregister, health-tick and
broadcast steps (arbitrary connection-task steps interleaved), the hub's
connection set contains a connection iff the recorded action history shows
it registered and not removed since — removals happening exactly in the
unregister branch, the health-check immediate removal of closed
connections, and the broadcast-time force-close on a saturated unregister
channel — with no duplicates in the set and no ghost members (every member
has an actual registration in the history). -/
theorem hub_membership_invariant (events : List HubEvent) (n : Nat) :
    (n ∈ (hubRun events).1.members ↔
      activeInHistory (hubRun events).2 n = true) ∧
    (hubRun events).1.members.Nodup ∧
    (n ∈ (hubRun events).1.members → HubAction.reg n ∈ (hubRun events).2) := by
  have h := hubRunFrom_invariant events initialHub []
    (by simp [initialHub])
    (fun m => by simp [initialHub, activeInHistory])
  refine ⟨by simpa [hubRun] using h.2 n, by simpa [hubRun] using h.1, fun hm => ?_⟩
  have ha : activeInHistory (hubRun events).2 n = true := by
    have := (h.2 n).mp (by simpa [hubRun] using hm)
    simpa [hubRun] using this
  rcases activeInHistory_true_reg n (hubRun events).2 false ha with h1 | h2
  · exact absurd h1 (by simp)
  · exact h2

/-- Witness for `hub_membership_invariant` on the concrete one-event trace
registering connection 3. -/
theorem hub_membership_invariant_witness :
    (3 ∈ (hubRun [HubEvent.register 3]).1.members ↔
      activeInHistory (hubRun [HubEvent.register 3]).2 3 = true) ∧
    (hubRun [HubEvent.register 3]).1.members.Nodup ∧
    HubAction.reg 3 ∈ (hubRun [HubEvent.register 3]).2 :=
  ⟨(hub_membership_invariant [HubEvent.register 3] 3).1,
   (hub_membership_invariant [HubEvent.register 3] 3).2.1,
   (hub_membership_invariant [HubEvent.register 3] 3).2.2 (by decide)⟩

theorem shouldDrop_false_not_closed (c : Connection) (now : Int)
    (h : c.shouldDrop now = false) : c.isClosed = false := by
  simp [Connection.shouldDrop] at h
  exact h.1

/-- C4 (counterexample): a health-check pass at time 20 over one paused,
stale, open connection with a saturated unregister path closes the
connection directly but leaves it in the hub's connection set — the
membership list is still `[0]` after the pass, contradicting the claim
that the connection is dropped from the set within the same pass. -/
theorem health_saturated_cex :
    pausedConn.isClosed = false ∧
    pausedConn.shouldDrop 20 = true ∧
    (checkConnectionHealth 20 (fun _ => true) (fun _ => false) [0]
        (fun _ => pausedConn)).members = [0] ∧
    ((checkConnectionHealth 20 (fun _ => true) (fun _ => false) [0]
        (fun _ => pausedConn)).conns 0).isClosed = true := by
  decide

/-- C4 (amended): during a health-check pass, every queued-for-removal
connection is submitted to the unregister path without blocking when that
path accepts it; when it is saturated the connection is closed directly
but remains in the hub's connection set for the rest of the pass, and is
removed by a subsequent health-check pass (through the closed-connection
immediate-removal branch) rather than within the same pass. -/
theorem health_saturated_close_deferred_removal (now now2 : Int)
    (pingOk sendOk pingOk2 sendOk2 : Nat → Bool) (ms : List Nat)
    (conns : Nat → Connection) (n : Nat)
    (hm : n ∈ ms) (hnc : (conns n).isClosed = false)
    (hd : (conns n).shouldDrop now = true) :
    (sendOk n = true →
      n ∈ (checkConnectionHealth now pingOk sendOk ms conns).sent) ∧
    (sendOk n = false →
      n ∈ (checkConnectionHealth now pingOk sendOk ms conns).members ∧
      ((checkConnectionHealth now pingOk sendOk ms conns).conns n).isClosed = true ∧
      n ∉ (checkConnectionHealth now2 pingOk2 sendOk2
            (checkConnectionHealth now pingOk sendOk ms conns).members
            (checkConnectionHealth now pingOk sendOk ms conns).conns).members) := by
  have hsw := healthSweep_eq now pingOk ms conns
  have hdropmem : n ∈ (healthSweep now pingOk ms conns).drops := by
    rw [hsw]
    exact List.mem_filter.mpr ⟨hm, by simp [hnc, hd]⟩
  constructor
  · intro hs
    show n ∈ (processDrops sendOk (healthSweep now pingOk ms conns).drops
        (healthSweep now pingOk ms conns).conns).2
    rw [processDrops_sent]
    exact List.mem_filter.mpr ⟨hdropmem, hs⟩
  · intro hs
    have hc1 : ((checkConnectionHealth now pingOk sendOk ms conns).conns n).isClosed
        = true := by
      show ((processDrops sendOk (healthSweep now pingOk ms conns).drops
          (healthSweep now pingOk ms conns).conns).1 n).isClosed = true
      rw [processDrops_conns]
      rw [if_pos ⟨hdropmem, hs⟩]
      exact Connection.Close_isClosed _
    have hm1 : n ∈ (checkConnectionHealth now pingOk sendOk ms conns).members := by
      show n ∈ (healthSweep now pingOk ms conns).members
      rw [hsw]
      exact List.mem_filter.mpr ⟨hm, by simp [hnc]⟩
    refine ⟨hm1, hc1, fun hcon => ?_⟩
    have h2 : n ∈ (healthSweep now2 pingOk2
        (checkConnectionHealth now pingOk sendOk ms conns).members
        (checkConnectionHealth now pingOk sendOk ms conns).conns).members := hcon
    rw [healthSweep_eq] at h2
    have h3 := (List.mem_filter.mp h2).2
    simp [hc1] at h3

/-- Witness for `health_saturated_close_deferred_removal`: one paused stale
connection, saturated unregister path, sweep at time 20, second sweep at
time 22. -/
theorem health_saturated_witness :
    0 ∈ (checkConnectionHealth 20 (fun _ => true) (fun _ => false) [0]
        (fun _ => pausedConn)).members ∧
    ((checkConnectionHealth 20 (fun _ => true) (fun _ => false) [0]
        (fun _ => pausedConn)).conns 0).isClosed = true ∧
    0 ∉ (checkConnectionHealth 22 (fun _ => true) (fun _ => false)
          (checkConnectionHealth 20 (fun _ => true) (fun _ => false) [0]
            (fun _ => pausedConn)).members
          (checkConnectionHealth 20 (fun _ => true) (fun _ => false) [0]
            (fun _ => pausedConn)).conns).members :=
  (health_saturated_close_deferred_removal 20 22 (fun _ => true) (fun _ => false)
    (fun _ => true) (fun _ => false) [0] (fun _ => pausedConn) 0
    (by decide) rfl (by decide)).2 rfl

/-- C6: a connection that is paused at dispatch time has no envelope
delivered to its outbound buffer by a broadcast (the per-connection
delivery task skips it entirely, so its state is untouched), while a
paused connection surviving the health-check sweep (drop predicate false)
is sent a liveness ping during that sweep, and the ping attempt on a
non-dropping connection writes the ping envelope to its wire. -/
theorem paused_skipped_but_pinged (l : WebSocketMessage) (now : Int)
    (sendOk pingOk : Nat → Bool) (ms : List Nat) (conns : Nat → Connection)
    (n : Nat) (c : Connection) :
    (c.isPaused = true → deliverTo l now c = c) ∧
    ((conns n).isPaused = true →
      (broadcastStep l now sendOk ms conns).conns n = conns n) ∧
    (n ∈ ms → (conns n).isPaused = true → (conns n).shouldDrop now = false →
      n ∈ (healthSweep now pingOk ms conns).pinged) ∧
    ((conns n).shouldDrop now = false →
      ((conns n).SendPing true).2.1 = [pingMessage]) := by
  refine ⟨fun hp => ?_, fun hp => ?_, fun hmm hp hd => ?_, fun hd => ?_⟩
  · simp [deliverTo, Connection.IsPaused, hp]
  · by_cases he : ms.isEmpty
    · simp [broadcastStep, he]
    · simp [broadcastStep, he, broadcastFilter_eq, deliverTo,
        Connection.IsPaused, hp]
  · rw [healthSweep_eq]
    refine List.mem_filter.mpr ⟨hmm, ?_⟩
    have hnc := shouldDrop_false_not_closed _ _ hd
    simp [hnc, hd, hp]
  · have hnc := shouldDrop_false_not_closed _ _ hd
    simp [Connection.SendPing, hnc]

/-- Witness for `paused_skipped_but_pinged`: a paused fresh connection at
time 5 is skipped by delivery but pinged by the sweep. -/
theorem paused_skipped_but_pinged_witness :
    pausedConn.isPaused = true ∧
    deliverTo logMsgA 5 pausedConn = pausedConn ∧
    (broadcastStep logMsgA 5 (fun _ => true) [0] (fun _ => pausedConn)).conns 0 =
      pausedConn ∧
    0 ∈ (healthSweep 5 (fun _ => true) [0] (fun _ => pausedConn)).pinged ∧
    (pausedConn.SendPing true).2.1 = [pingMessage] :=
  ⟨rfl,
   (paused_skipped_but_pinged logMsgA 5 (fun _ => true) (fun _ => true) [0]
      (fun _ => pausedConn) 0 pausedConn).1 rfl,
   (paused_skipped_but_pinged logMsgA 5 (fun _ => true) (fun _ => true) [0]
      (fun _ => pausedConn) 0 pausedConn).2.1 rfl,
   (paused_skipped_but_pinged logMsgA 5 (fun _ => true) (fun _ => true) [0]
      (fun _ => pausedConn) 0 pausedConn).2.2.1 (by decide) rfl (by decide),
   (paused_skipped_but_pinged logMsgA 5 (fun _ => true) (fun _ => true) [0]
      (fun _ => pausedConn) 0 pausedConn).2.2.2 (by decide)⟩

end SmartLogViewer
